import Mathlib

/-!
Verification of the random-walk / mean-squared-displacement pipeline in
`RW-MSD.py`.  The three core functions — `generate_random_walk`,
`calculate_msd` and `calculate_diffusion_coefficient` — are shallowly
embedded below.  Exact trajectory arithmetic is modelled over `ℚ`
(the MSD computation is plain field arithmetic), the log-log regression
over `ℝ`.  NumPy's silent non-finite results (`np.mean` of an empty
slice is NaN, `np.log 0 = -inf`, `np.log` of a negative is NaN) are made
explicit with `Option` and the `NpFloat` type, since several properties
concern exactly those cases.  Random draws are passed in as explicit
increment streams, mirroring the fact that `np.random.normal` is the
sole effect of the generator.
-/

/-- Running cumulative sum, the semantics of `np.cumsum`:
`(cumsum l)[i] = l[0] + ... + l[i]`. -/
def cumsum {α : Type} [Add α] : List α → List α
  | [] => []
  | a :: t => a :: (cumsum t).map (fun s => a + s)

/-- Model of `generate_random_walk(steps=1000)` from `RW-MSD.py` (lines 14–26).
`steps` is `none` when the Python argument is omitted (default 1000).
The normal draws `np.random.normal(0, 1, size=steps)` are modelled by the
increment streams `xdraw`, `ydraw`: the call takes their first `steps`
values.  `np.random.normal` raises `ValueError` on a negative `size`
(modelled by `none`); `size=0` yields an empty array.  The function body
itself performs no validation. -/
def generate_random_walk {α : Type} [Add α] (steps : Option ℤ)
    (xdraw ydraw : ℕ → α) : Option (List α × List α) :=
  let s := steps.getD 1000
  if s < 0 then none
  else
    some (cumsum ((List.range s.toNat).map xdraw),
          cumsum ((List.range s.toNat).map ydraw))

/-- Model of `np.mean` on a 1-D array: the arithmetic mean, or NaN (`none`) when the
array is empty (NumPy emits a `RuntimeWarning` and returns `nan`, it does
not raise). -/
def npMean (l : List ℚ) : Option ℚ :=
  if l.length = 0 then none else some (l.sum / l.length)

/-- The per-lag squared displacements of `calculate_msd`'s loop body
(lines 43–45): `dx = x[lag:] - x[:-lag]`, `dy = y[lag:] - y[:-lag]`,
elementwise `dx**2 + dy**2`.  For `lag ≥ 1`, `x[lag:]` is `x.drop lag` and
`x[:-lag]` is `x.take (x.length - lag)`. -/
def sqDisp (x y : List ℚ) (lag : ℕ) : List ℚ :=
  List.zipWith (fun dx dy => dx ^ 2 + dy ^ 2)
    (List.zipWith (fun a b => a - b) (x.drop lag) (x.take (x.length - lag)))
    (List.zipWith (fun a b => a - b) (y.drop lag) (y.take (y.length - lag)))

/-- Model of `calculate_msd(x, y, max_lag=None)` from `RW-MSD.py` (lines 28–47).
`max_lag = None` resolves to `len(x) // 2`; `lags = np.arange(1, max_lag+1)`;
for each lag the mean squared displacement is stored at index `lag - 1`
(the loop fills the length-`max_lag` zeros array exactly once per index,
i.e. it is the map of the loop body over `lags`).  Entries are `Option ℚ`
because `np.mean` of an empty displacement slice (lag ≥ len(x)) is NaN. -/
def calculate_msd (x y : List ℚ) (max_lag : Option ℕ) :
    List ℕ × List (Option ℚ) :=
  let maxLag := max_lag.getD (x.length / 2)
  let lags := List.range' 1 maxLag
  (lags, lags.map (fun lag => npMean (sqDisp x y lag)))

/-- A NumPy floating-point result of `np.log`: a finite real, `-inf`, or NaN. -/
inductive NpFloat where
  | finite (v : ℝ)
  | negInf
  | nan

noncomputable section

/-- Model of `np.log` applied elementwise: the natural logarithm on positives,
`-inf` at `0` and NaN on negatives — in all three cases a value is
returned (at most a `RuntimeWarning` is emitted); no exception is raised. -/
def npLog (v : ℝ) : NpFloat :=
  if 0 < v then .finite (Real.log v) else if v = 0 then .negInf else .nan

/-- The log-transform step of `calculate_diffusion_coefficient`
(lines 56–57): `np.log` applied elementwise to a series, with NumPy's
full-domain semantics. -/
def logTransform (l : List ℝ) : List NpFloat := l.map npLog

/-- Model of `np.polyfit(xs, ys, 1)`: the least-squares degree-1 fit, written in
closed form via the normal equations (`np.polyfit` is documented as the
least-squares polynomial fit; for degree 1 with a non-degenerate design
this is its unique solution).  Returns `(slope, intercept)`. -/
def polyfit1 (xs ys : List ℝ) : ℝ × ℝ :=
  let l := xs.zip ys
  let n : ℝ := l.length
  let sx := (l.map (fun p => p.1)).sum
  let sy := (l.map (fun p => p.2)).sum
  let sxx := (l.map (fun p => p.1 ^ 2)).sum
  let sxy := (l.map (fun p => p.1 * p.2)).sum
  let a := (n * sxy - sx * sy) / (n * sxx - sx ^ 2)
  (a, (sy - a * sx) / n)

/-- Model of `calculate_diffusion_coefficient(lags, msd)` from `RW-MSD.py`
(lines 49–62), on the domain where every series entry is positive, so
that `np.log` coincides with `Real.log` (the full domain of `np.log` is
modelled by `logTransform`).  Returns
`(diffusion_coefficient, slope, coeffs)` with
`diffusion_coefficient = exp(coeffs[1]) / 4`. -/
def calculate_diffusion_coefficient (lags msd : List ℝ) :
    ℝ × ℝ × (ℝ × ℝ) :=
  let log_lags := lags.map Real.log
  let log_msd := msd.map Real.log
  let coeffs := polyfit1 log_lags log_msd
  (Real.exp coeffs.2 / 4, coeffs.1, coeffs)

/-- Spec-side MSD at lag `L`: the unweighted mean over all starting
indices `i ∈ [0, N-L-1]` of `(x[i+L]-x[i])² + (y[i+L]-y[i])²`. -/
def specMSD (x y : List ℚ) (L : ℕ) : ℚ :=
  (((List.range (x.length - L)).map (fun i =>
      (x.getD (i + L) 0 - x.getD i 0) ^ 2 +
      (y.getD (i + L) 0 - y.getD i 0) ^ 2)).sum) / (x.length - L)

/-- Spec-side residual sum of squares of a candidate line `y = a·x + b`
against data `(xs, ys)`: the objective that ordinary least squares
minimises. -/
def residSq (a b : ℝ) (xs ys : List ℝ) : ℝ :=
  ((xs.zip ys).map (fun p => (a * p.1 + b - p.2) ^ 2)).sum

/-- Non-degeneracy of a least-squares design: `n·Σx² - (Σx)² > 0`
(equivalently, `xs` has at least two distinct entries). -/
def det2 (xs : List ℝ) : ℝ :=
  (xs.length : ℝ) * (xs.map (fun v => v ^ 2)).sum - xs.sum ^ 2

end

lemma cumsum_length {α : Type} [Add α] (l : List α) :
    (cumsum l).length = l.length := by
  induction l with
  | nil => rfl
  | cons a t ih => simp [cumsum, ih]

lemma cumsum_getElem? {α : Type} [AddMonoid α] (l : List α) (i : ℕ)
    (h : i < l.length) : (cumsum l)[i]? = some ((l.take (i + 1)).sum) := by
  induction l generalizing i with
  | nil => simp at h
  | cons a t ih =>
    cases i with
    | zero => simp [cumsum]
    | succ j =>
      have hj : j < t.length := by simpa using h
      simp [cumsum, ih j hj]

lemma take_one_sum_map_range (f : ℕ → ℝ) (n : ℕ) (h : 1 ≤ n) :
    (((List.range n).map f).take 1).sum = f 0 := by
  obtain ⟨m, rfl⟩ : ∃ m, n = m + 1 := ⟨n - 1, by omega⟩
  simp [List.range_succ_eq_map]

/-- C7: for every `steps ≥ 1` (given the increment streams drawn by
`np.random.normal`), the generator returns a trajectory of length exactly
`steps` whose `x` and `y` sequences are the running cumulative sums of the
respective increment sequences, so the first point is the first increment
pair, not the origin. -/
theorem generate_walk_cumsum (steps : ℤ) (xdraw ydraw : ℕ → ℝ)
    (h : 1 ≤ steps) :
    ∃ tx ty : List ℝ,
      generate_random_walk (some steps) xdraw ydraw = some (tx, ty) ∧
      tx.length = steps.toNat ∧ ty.length = steps.toNat ∧
      (∀ i, i < steps.toNat →
        tx[i]? = some ((((List.range steps.toNat).map xdraw).take (i + 1)).sum) ∧
        ty[i]? = some ((((List.range steps.toNat).map ydraw).take (i + 1)).sum)) ∧
      tx[0]? = some (xdraw 0) ∧ ty[0]? = some (ydraw 0) := by
  have hs0 : ¬ (steps < 0) := by omega
  have hn : 1 ≤ steps.toNat := by omega
  refine ⟨cumsum ((List.range steps.toNat).map xdraw),
          cumsum ((List.range steps.toNat).map ydraw), ?_, ?_, ?_, ?_, ?_, ?_⟩
  · simp [generate_random_walk, hs0]
  · simp [cumsum_length]
  · simp [cumsum_length]
  · intro i hi
    constructor <;> (rw [cumsum_getElem?]; simp [hi])
  · rw [cumsum_getElem?, take_one_sum_map_range _ _ hn]
    simp
    omega
  · rw [cumsum_getElem?, take_one_sum_map_range _ _ hn]
    simp
    omega

theorem generate_walk_cumsum_witness :
    ∃ tx ty : List ℝ,
      generate_random_walk (some 2) (fun _ => (1 : ℝ)) (fun _ => (0 : ℝ)) =
        some (tx, ty) ∧
      tx.length = (2 : ℤ).toNat ∧ ty.length = (2 : ℤ).toNat ∧
      (∀ i, i < (2 : ℤ).toNat →
        tx[i]? = some ((((List.range (2 : ℤ).toNat).map
            (fun _ => (1 : ℝ))).take (i + 1)).sum) ∧
        ty[i]? = some ((((List.range (2 : ℤ).toNat).map
            (fun _ => (0 : ℝ))).take (i + 1)).sum)) ∧
      tx[0]? = some ((fun _ => (1 : ℝ)) 0) ∧
      ty[0]? = some ((fun _ => (0 : ℝ)) 0) :=
  generate_walk_cumsum 2 (fun _ => (1 : ℝ)) (fun _ => (0 : ℝ)) (by decide)

/-- C8 (counterexample): `steps = 0` satisfies `steps < 1`, yet the
generator returns normally — an empty trajectory — rather than failing. -/
theorem generate_walk_zero_steps_returns :
    generate_random_walk (some 0) (fun _ => (1 : ℝ)) (fun _ => (0 : ℝ)) =
      some ([], []) := rfl

/-- C8 (amended): the generator body performs no validation of `steps`.
It fails only for `steps < 0` (the `ValueError` that `np.random.normal`
raises on a negative `size`, modelled by `none`), while `steps = 0`
silently yields an empty trajectory. -/
theorem generate_walk_fails_only_on_negative :
    (∀ (steps : ℤ) (xdraw ydraw : ℕ → ℝ), steps < 0 →
        generate_random_walk (some steps) xdraw ydraw = none) ∧
    (∀ xdraw ydraw : ℕ → ℝ,
        generate_random_walk (some 0) xdraw ydraw = some ([], [])) := by
  constructor
  · intro steps xdraw ydraw hs
    simp [generate_random_walk, hs]
  · intro xdraw ydraw
    rfl

theorem generate_walk_fails_only_on_negative_witness :
    generate_random_walk (some (-3)) (fun _ => (1 : ℝ)) (fun _ => (0 : ℝ)) =
      none :=
  generate_walk_fails_only_on_negative.1 (-3) _ _ (by decide)

/-- C10: an omitted `steps` argument defaults to `1000`, and the resulting
trajectory has length 1000. -/
theorem generate_walk_default_1000 :
    ∀ xdraw ydraw : ℕ → ℝ,
      generate_random_walk none xdraw ydraw =
        generate_random_walk (some 1000) xdraw ydraw ∧
      ∃ tx ty : List ℝ,
        generate_random_walk none xdraw ydraw = some (tx, ty) ∧
        tx.length = 1000 ∧ ty.length = 1000 := by
  intro xdraw ydraw
  refine ⟨rfl, cumsum ((List.range 1000).map xdraw),
          cumsum ((List.range 1000).map ydraw), ?_, ?_, ?_⟩
  · simp [generate_random_walk]
  · simp [cumsum_length]
  · simp [cumsum_length]

/-- C9: `calculate_msd` and `calculate_diffusion_coefficient` are pure
functions of their arguments (they read no global or random state in the
source), so two calls with identical inputs return identical outputs. -/
theorem pipeline_deterministic :
    (∀ (x₁ y₁ : List ℚ) (m₁ : Option ℕ) (x₂ y₂ : List ℚ) (m₂ : Option ℕ),
        x₁ = x₂ → y₁ = y₂ → m₁ = m₂ →
        calculate_msd x₁ y₁ m₁ = calculate_msd x₂ y₂ m₂) ∧
    (∀ l₁ m₁ l₂ m₂ : List ℝ, l₁ = l₂ → m₁ = m₂ →
        calculate_diffusion_coefficient l₁ m₁ =
          calculate_diffusion_coefficient l₂ m₂) := by
  constructor
  · intro x₁ y₁ m₁ x₂ y₂ m₂ hx hy hm
    rw [hx, hy, hm]
  · intro l₁ m₁ l₂ m₂ hl hm
    rw [hl, hm]

theorem pipeline_deterministic_witness :
    calculate_msd [(1 : ℚ), 2] [0, 0] (some 1) =
      calculate_msd [(1 : ℚ), 2] [0, 0] (some 1) ∧
    calculate_diffusion_coefficient [(1 : ℝ), 2] [1, 4] =
      calculate_diffusion_coefficient [(1 : ℝ), 2] [1, 4] :=
  ⟨pipeline_deterministic.1 _ _ _ _ _ _ rfl rfl rfl,
   pipeline_deterministic.2 _ _ _ _ rfl rfl⟩

lemma sqDisp_length (x y : List ℚ) (L : ℕ) (hxy : x.length = y.length) :
    (sqDisp x y L).length = x.length - L := by
  simp [sqDisp]
  omega

lemma sqDisp_eq_map (x y : List ℚ) (L : ℕ) (hxy : x.length = y.length) :
    sqDisp x y L = (List.range (x.length - L)).map (fun i =>
      (x.getD (i + L) 0 - x.getD i 0) ^ 2 +
      (y.getD (i + L) 0 - y.getD i 0) ^ 2) := by
  apply List.ext_getElem
  · rw [sqDisp_length x y L hxy]
    simp
  · intro i h1 h2
    have hi : i < x.length - L := by rw [sqDisp_length x y L hxy] at h1; exact h1
    have hxL : L + i < x.length := by omega
    have hyL : L + i < y.length := by omega
    have hx : i < x.length := by omega
    have hy : i < y.length := by omega
    simp [sqDisp, List.getElem_zipWith, List.getElem_drop, List.getElem_take,
      List.getD_eq_getElem?_getD, List.getElem?_eq_getElem, hxL, hyL, hx, hy,
      Nat.add_comm i L]

lemma npMean_sqDisp (x y : List ℚ) (L : ℕ) (hxy : x.length = y.length)
    (hL : L < x.length) :
    npMean (sqDisp x y L) = some (specMSD x y L) := by
  rw [sqDisp_eq_map x y L hxy, npMean]
  simp only [List.length_map, List.length_range]
  rw [if_neg (by omega)]
  simp [specMSD, Nat.cast_sub hL.le]

lemma msd_entry_mean (x y : List ℚ) (L maxLag : ℕ)
    (hxy : x.length = y.length) (hL1 : 1 ≤ L) (hLm : L ≤ maxLag)
    (hm : maxLag < x.length) :
    ((calculate_msd x y (some maxLag)).2)[L - 1]? =
      some (some (specMSD x y L)) := by
  have hL : L < x.length := by omega
  have hidx : L - 1 < maxLag := by omega
  show ((List.range' 1 maxLag).map
      (fun lag => npMean (sqDisp x y lag)))[L - 1]? = _
  rw [List.getElem?_map, List.getElem?_range' 1 1 hidx]
  have h1L : 1 + 1 * (L - 1) = L := by omega
  rw [h1L]
  simp [npMean_sqDisp x y L hxy hL]

/-- C1: for every lag `L` with `1 ≤ L ≤ maxLag < N`, position `L-1` of the
MSD series is the unweighted mean over starting indices `i ∈ [0, N-L-1]`
of `(x[i+L]-x[i])² + (y[i+L]-y[i])²`; in particular on the trajectory
`[(0,0),(1,0),(2,0),(3,0)]` with `maxLag = 2` the result is lags `[1,2]`
with MSD values `[1, 4]`. -/
theorem calculate_msd_unweighted_mean :
    (∀ (x y : List ℚ) (L maxLag : ℕ), x.length = y.length → 1 ≤ L →
      L ≤ maxLag → maxLag < x.length →
      ((calculate_msd x y (some maxLag)).2)[L - 1]? =
        some (some (specMSD x y L))) ∧
    calculate_msd [(0 : ℚ), 1, 2, 3] [0, 0, 0, 0] (some 2) =
      ([1, 2], [some 1, some 4]) := by
  constructor
  · intro x y L maxLag hxy hL1 hLm hm
    exact msd_entry_mean x y L maxLag hxy hL1 hLm hm
  · norm_num [calculate_msd, npMean, sqDisp, List.range']

theorem calculate_msd_unweighted_mean_witness :
    ((calculate_msd [(0 : ℚ), 1, 2, 3] [0, 0, 0, 0] (some 2)).2)[2 - 1]? =
      some (some (specMSD [(0 : ℚ), 1, 2, 3] [0, 0, 0, 0] 2)) ∧
    specMSD [(0 : ℚ), 1, 2, 3] [0, 0, 0, 0] 2 = 4 :=
  ⟨calculate_msd_unweighted_mean.1 [(0 : ℚ), 1, 2, 3] [0, 0, 0, 0] 2 2
      rfl (by decide) (by decide) (by decide),
   by norm_num [specMSD, show List.range 2 = [0, 1] from rfl]⟩

/-- C5: for every valid resolved `maxLag`, the lag series is
`[1, 2, ..., maxLag]` and the MSD series has the same length `maxLag`;
an omitted `maxLag` resolves to `⌊N/2⌋`. -/
theorem calculate_msd_lag_series :
    (∀ (x y : List ℚ) (maxLag : ℕ), 1 ≤ maxLag → maxLag < x.length →
      (calculate_msd x y (some maxLag)).1.length = maxLag ∧
      (calculate_msd x y (some maxLag)).2.length = maxLag ∧
      ∀ i, i < maxLag →
        (calculate_msd x y (some maxLag)).1[i]? = some (i + 1)) ∧
    ∀ x y : List ℚ,
      calculate_msd x y none = calculate_msd x y (some (x.length / 2)) := by
  constructor
  · intro x y maxLag h1 h2
    refine ⟨by simp [calculate_msd], by simp [calculate_msd], ?_⟩
    intro i hi
    show (List.range' 1 maxLag)[i]? = some (i + 1)
    rw [List.getElem?_range' 1 1 hi]
    congr 1
    omega
  · intro x y
    rfl

theorem calculate_msd_lag_series_witness :
    (calculate_msd [(0 : ℚ), 1, 2, 3] [0, 0, 0, 0] (some 2)).1.length = 2 ∧
    (calculate_msd [(0 : ℚ), 1, 2, 3] [0, 0, 0, 0] (some 2)).2.length = 2 ∧
    ∀ i, i < 2 →
      (calculate_msd [(0 : ℚ), 1, 2, 3] [0, 0, 0, 0] (some 2)).1[i]? =
        some (i + 1) :=
  calculate_msd_lag_series.1 [(0 : ℚ), 1, 2, 3] [0, 0, 0, 0] 2
    (by decide) (by decide)

/-- C2 (counterexample): with `maxLag = 2 = N` on a length-2 trajectory the
estimator does not fail — it returns lags `[1, 2]` with the lag-2 entry NaN
(`np.mean` of an empty slice); and with the degenerate default
`maxLag = N // 2 = 0` on a length-1 trajectory it returns empty series
rather than rejecting the call. -/
theorem calculate_msd_out_of_range_returns :
    calculate_msd [(0 : ℚ), 1] [0, 0] (some 2) = ([1, 2], [some 1, none]) ∧
    calculate_msd [(0 : ℚ)] [0] none = ([], []) := by
  constructor
  · norm_num [calculate_msd, npMean, sqDisp, List.range']
  · rfl

/-- C2 (amended): `calculate_msd` performs no validation of the resolved
`maxLag`.  For lags `L ≥ N` the stored entry is NaN (`np.mean` of an empty
displacement slice, `none` here) rather than an error, and a resolved
`maxLag = 0` (in particular the default on a length-1 trajectory) silently
yields empty lag and MSD series. -/
theorem calculate_msd_no_validation :
    (∀ (x y : List ℚ) (maxLag L : ℕ), x.length = y.length → 1 ≤ L →
        L ≤ maxLag → x.length ≤ L →
        ((calculate_msd x y (some maxLag)).2)[L - 1]? = some none) ∧
    (∀ x y : List ℚ, calculate_msd x y (some 0) = ([], [])) ∧
    (∀ x y : List ℚ, x.length = 1 → calculate_msd x y none = ([], [])) := by
  refine ⟨?_, ?_, ?_⟩
  · intro x y maxLag L hxy hL1 hLm hNL
    have hidx : L - 1 < maxLag := by omega
    show ((List.range' 1 maxLag).map
        (fun lag => npMean (sqDisp x y lag)))[L - 1]? = _
    rw [List.getElem?_map, List.getElem?_range' 1 1 hidx]
    have h1L : 1 + 1 * (L - 1) = L := by omega
    rw [h1L]
    have hlen : (sqDisp x y L).length = 0 := by
      rw [sqDisp_length x y L hxy]
      omega
    have hnone : npMean (sqDisp x y L) = none := by
      unfold npMean
      rw [if_pos hlen]
    simp [hnone]
  · intro x y
    rfl
  · intro x y hx
    show (fun maxLag => (List.range' 1 maxLag,
      (List.range' 1 maxLag).map (fun lag => npMean (sqDisp x y lag))))
        (x.length / 2) = ([], [])
    rw [hx]
    rfl

theorem calculate_msd_no_validation_witness :
    ((calculate_msd [(0 : ℚ), 1] [0, 0] (some 2)).2)[2 - 1]? = some none ∧
    calculate_msd [(5 : ℚ)] [7] none = ([], []) :=
  ⟨calculate_msd_no_validation.1 [(0 : ℚ), 1] [0, 0] 2 2
      (by decide) (by decide) (by decide) (by decide),
   calculate_msd_no_validation.2.2 [(5 : ℚ)] [7] (by decide)⟩

lemma residSq_expand (a b : ℝ) (l : List (ℝ × ℝ)) :
    (l.map (fun p => (a * p.1 + b - p.2) ^ 2)).sum =
      a ^ 2 * (l.map (fun p => p.1 ^ 2)).sum + b ^ 2 * l.length
        + (l.map (fun p => p.2 ^ 2)).sum
        + 2 * a * b * (l.map (fun p => p.1)).sum
        - 2 * a * (l.map (fun p => p.1 * p.2)).sum
        - 2 * b * (l.map (fun p => p.2)).sum := by
  induction l with
  | nil => simp
  | cons p t ih =>
    simp only [List.map_cons, List.sum_cons, List.length_cons]
    rw [ih]
    push_cast
    ring

lemma ols_min (n sx sy sxx sxy syy a b ah bh : ℝ) (hn : 0 < n)
    (hd : 0 < n * sxx - sx ^ 2)
    (ha : ah * (n * sxx - sx ^ 2) = n * sxy - sx * sy)
    (hb : bh * n = sy - ah * sx) :
    ah ^ 2 * sxx + bh ^ 2 * n + syy + 2 * ah * bh * sx
        - 2 * ah * sxy - 2 * bh * sy
      ≤ a ^ 2 * sxx + b ^ 2 * n + syy + 2 * a * b * sx
        - 2 * a * sxy - 2 * b * sy := by
  have h1 : n * (sxx * ah + sx * bh - sxy) = 0 := by
    linear_combination ha + sx * hb
  have h2 : n * bh + sx * ah - sy = 0 := by
    linear_combination hb
  have key : n * ((a ^ 2 * sxx + b ^ 2 * n + syy + 2 * a * b * sx
        - 2 * a * sxy - 2 * b * sy)
      - (ah ^ 2 * sxx + bh ^ 2 * n + syy + 2 * ah * bh * sx
        - 2 * ah * sxy - 2 * bh * sy))
      = (n * (b - bh) + sx * (a - ah)) ^ 2
        + (n * sxx - sx ^ 2) * (a - ah) ^ 2 := by
    linear_combination (2 * (a - ah)) * h1 + (2 * n * (b - bh)) * h2
  nlinarith [key, sq_nonneg (n * (b - bh) + sx * (a - ah)),
    mul_nonneg hd.le (sq_nonneg (a - ah)), hn]

lemma polyfit1_isOLS (xs ys : List ℝ) (hlen : xs.length = ys.length)
    (hd : 0 < det2 xs) (a b : ℝ) :
    residSq (polyfit1 xs ys).1 (polyfit1 xs ys).2 xs ys ≤
      residSq a b xs ys := by
  have hfst : (xs.zip ys).map (fun p => p.1) = xs :=
    List.map_fst_zip xs ys hlen.le
  have hsq : (xs.zip ys).map (fun p => p.1 ^ 2) = xs.map (fun v => v ^ 2) := by
    calc (xs.zip ys).map (fun p => p.1 ^ 2)
        = ((xs.zip ys).map (fun p => p.1)).map (fun v => v ^ 2) := by
          rw [List.map_map]
          exact rfl
      _ = xs.map (fun v => v ^ 2) := by rw [hfst]
  have hlength : (((xs.zip ys).length : ℕ) : ℝ) = (xs.length : ℝ) := by
    rw [List.length_zip, hlen, min_self]
  have hn : 0 < (((xs.zip ys).length : ℕ) : ℝ) := by
    have hxs : xs ≠ [] := by
      rintro rfl
      simp [det2] at hd
    have hpos : 0 < xs.length := List.length_pos.mpr hxs
    rw [hlength]
    exact_mod_cast hpos
  have hdet : 0 < (((xs.zip ys).length : ℕ) : ℝ) *
      ((xs.zip ys).map (fun p => p.1 ^ 2)).sum -
      ((xs.zip ys).map (fun p => p.1)).sum ^ 2 := by
    rw [hlength, hsq, hfst]
    rw [det2] at hd
    exact hd
  have ha := div_mul_cancel₀
    ((((xs.zip ys).length : ℕ) : ℝ) * ((xs.zip ys).map (fun p => p.1 * p.2)).sum
      - ((xs.zip ys).map (fun p => p.1)).sum * ((xs.zip ys).map (fun p => p.2)).sum)
    (ne_of_gt hdet)
  have hb := div_mul_cancel₀
    (((xs.zip ys).map (fun p => p.2)).sum - (polyfit1 xs ys).1 *
      ((xs.zip ys).map (fun p => p.1)).sum)
    (ne_of_gt hn)
  simp only [residSq, polyfit1]
  rw [residSq_expand, residSq_expand]
  exact ols_min _ _ _ _ _ _ a b _ _ hn hdet ha hb

/-- C4: for positive lag and MSD series (with a non-degenerate log design),
the fitted `coeffs` are the ordinary least-squares degree-1 fit of
`log(msd)` on `log(lags)` — they minimise the residual sum of squares —
and the returned diffusion coefficient is `exp(intercept) / 4`, the slope
component being `coeffs[0]`. -/
theorem calculate_diffusion_ols :
    ∀ lags msd : List ℝ, lags.length = msd.length →
      (∀ v ∈ lags, 0 < v) → (∀ v ∈ msd, 0 < v) →
      0 < det2 (lags.map Real.log) →
      (∀ a b : ℝ,
        residSq (calculate_diffusion_coefficient lags msd).2.2.1
            (calculate_diffusion_coefficient lags msd).2.2.2
            (lags.map Real.log) (msd.map Real.log) ≤
          residSq a b (lags.map Real.log) (msd.map Real.log)) ∧
      (calculate_diffusion_coefficient lags msd).1 =
        Real.exp (calculate_diffusion_coefficient lags msd).2.2.2 / 4 ∧
      (calculate_diffusion_coefficient lags msd).2.1 =
        (calculate_diffusion_coefficient lags msd).2.2.1 := by
  intro lags msd hlen hpl hpm hd
  refine ⟨?_, rfl, rfl⟩
  intro a b
  have hlen' : (lags.map Real.log).length = (msd.map Real.log).length := by
    simp [hlen]
  exact polyfit1_isOLS (lags.map Real.log) (msd.map Real.log) hlen' hd a b

theorem calculate_diffusion_ols_witness :
    (∀ a b : ℝ,
      residSq (calculate_diffusion_coefficient [(1 : ℝ), 2] [1, 4]).2.2.1
          (calculate_diffusion_coefficient [(1 : ℝ), 2] [1, 4]).2.2.2
          ([(1 : ℝ), 2].map Real.log) ([(1 : ℝ), 4].map Real.log) ≤
        residSq a b ([(1 : ℝ), 2].map Real.log) ([(1 : ℝ), 4].map Real.log)) ∧
    (calculate_diffusion_coefficient [(1 : ℝ), 2] [1, 4]).1 =
      Real.exp (calculate_diffusion_coefficient [(1 : ℝ), 2] [1, 4]).2.2.2 / 4 ∧
    (calculate_diffusion_coefficient [(1 : ℝ), 2] [1, 4]).2.1 =
      (calculate_diffusion_coefficient [(1 : ℝ), 2] [1, 4]).2.2.1 :=
  calculate_diffusion_ols [(1 : ℝ), 2] [1, 4] rfl
    (by norm_num)
    (by norm_num)
    (by
      have hL : 0 < Real.log 2 := Real.log_pos (by norm_num)
      simp [det2, Real.log_one]
      nlinarith [hL])

/-- C6: feeding the MSD series `[1, 4]` at lags `[1, 2]` into the fitter
yields a log-log slope of exactly `2`. -/
theorem diffusion_slope_scenarioB :
    (calculate_diffusion_coefficient [(1 : ℝ), 2] [1, 4]).2.1 = 2 := by
  have hL : Real.log 2 ≠ 0 := ne_of_gt (Real.log_pos (by norm_num))
  have h4 : Real.log 4 = 2 * Real.log 2 := by
    rw [show (4 : ℝ) = 2 ^ 2 by norm_num, Real.log_pow]
    push_cast
    ring
  simp [calculate_diffusion_coefficient, polyfit1, Real.log_one, h4]
  have hden : 2 * Real.log 2 ^ 2 - Real.log 2 ^ 2 ≠ 0 := by
    ring_nf
    exact pow_ne_zero 2 hL
  rw [div_eq_iff hden]
  ring

/-- C3 (counterexample): applying the fitter's log transform to the MSD
series `[1, 0]` returns a value — `[log 1, -inf]` — rather than raising
`InvalidArgument`/`DomainError`: the zero entry is mapped silently to
`-inf`. -/
theorem fit_zero_msd_silent :
    logTransform [(1 : ℝ), 0] = [NpFloat.finite 0, NpFloat.negInf] := by
  norm_num [logTransform, npLog, Real.log_one]

/-- C3 (amended): the fitter performs no domain check.  `np.log` maps a
zero MSD entry to `-inf` and a negative one to NaN, silently (a
`RuntimeWarning` at most), and these non-finite values flow on into
`np.polyfit`; no `InvalidArgument`/`DomainError` is raised. -/
theorem fit_no_domain_check :
    ∀ (msd : List ℝ) (i : ℕ) (v : ℝ), msd[i]? = some v → v ≤ 0 →
      (logTransform msd)[i]? = some NpFloat.negInf ∨
      (logTransform msd)[i]? = some NpFloat.nan := by
  intro msd i v hv hle
  rw [logTransform, List.getElem?_map, hv]
  rcases eq_or_lt_of_le hle with h0 | hneg
  · left
    norm_num [npLog, h0]
  · right
    norm_num [npLog, not_lt.mpr hle, ne_of_lt hneg]

theorem fit_no_domain_check_witness :
    (logTransform [(1 : ℝ), 0])[1]? = some NpFloat.negInf ∨
    (logTransform [(1 : ℝ), 0])[1]? = some NpFloat.nan :=
  fit_no_domain_check [(1 : ℝ), 0] 1 0 rfl le_rfl
